import Mathlib

set_option linter.unnecessarySeqFocus false

/-!
Shallow embedding of the rproxychainsd SOCKS proxy chainer.

Byte streams are modelled as `List Nat` (each element a byte value).
Every async reader of the Rust source becomes a pure function
`List Nat → Except SocksErr (α × List Nat)` returning the parsed value
and the unconsumed remainder of the stream; every async writer becomes a
pure function producing the `List Nat` of bytes it appends.  A failed
`read_u8` on an exhausted stream is the `eof` error (the I/O error of the
source).  IPv4 addresses are the `u32` value of the address, ports the
`u16` value, both as `Nat`.
-/

namespace RProxy

/-- The error kinds of `src/socks.rs`, `src/socks4.rs` and `src/socks5.rs`,
merged into one type (the source merges them dynamically via `anyhow`).
`eof` stands for the I/O error a `read_u8` raises on a closed stream. -/
inductive SocksErr where
  | unsupportedVersion
  | protocolError
  | unsupportedCommand
  | authRejected
  | requestFailed4 (code : Nat)
  | requestFailed5 (code : Nat)
  | unsupportedAuthMethod
  | eof
deriving DecidableEq, Repr

/-- `SocksVersion` from `src/socks.rs`. -/
inductive SocksVersion where
  | socks4
  | socks5
deriving DecidableEq, Repr

/-- `stream.read_u8()`: one byte off the stream, I/O error when exhausted. -/
def readU8 : List Nat → Except SocksErr (Nat × List Nat)
  | [] => .error .eof
  | b :: rest => .ok (b, rest)

/-- `stream.read_u16()`: two bytes, big-endian. -/
def readU16 (s : List Nat) : Except SocksErr (Nat × List Nat) := do
  let (hi, s) ← readU8 s
  let (lo, s) ← readU8 s
  .ok (hi * 256 + lo, s)

/-- `stream.read_u32()`: four bytes, big-endian. -/
def readU32 (s : List Nat) : Except SocksErr (Nat × List Nat) := do
  let (hi, s) ← readU16 s
  let (lo, s) ← readU16 s
  .ok (hi * 65536 + lo, s)

/-- `stream.write_u16(v)`: the two big-endian bytes of `v`. -/
def writeU16 (v : Nat) : List Nat := [v / 256 % 256, v % 256]

/-- `stream.write_u32(v)`: the four big-endian bytes of `v`. -/
def writeU32 (v : Nat) : List Nat :=
  [v / 16777216 % 256, v / 65536 % 256, v / 256 % 256, v % 256]

/-- `read_version` from `src/socks.rs`: one byte, 4 ↦ SOCKS4, 5 ↦ SOCKS5,
anything else is `UnsupportedVersion`. -/
def read_version (s : List Nat) : Except SocksErr (SocksVersion × List Nat) := do
  let (b, s) ← readU8 s
  match b with
  | 4 => .ok (.socks4, s)
  | 5 => .ok (.socks5, s)
  | _ => .error .unsupportedVersion

/-- `Socks4CommandType` from `src/socks4.rs`. -/
inductive Socks4CommandType where
  | connect
  | bind
deriving DecidableEq, Repr

/-- `Socks4Command` from `src/socks4.rs`: kind plus (IPv4, port). -/
inductive Socks4Command where
  | connect (ip : Nat) (port : Nat)
  | bind (ip : Nat) (port : Nat)
deriving DecidableEq, Repr

/-- `TryFrom<u8> for Socks4CommandType`: 1 ↦ Connect, 2 ↦ Bind, else
`ProtocolError`. -/
def socks4CommandTypeOfByte (v : Nat) : Except SocksErr Socks4CommandType :=
  match v with
  | 1 => .ok .connect
  | 2 => .ok .bind
  | _ => .error .protocolError

/-- `Socks4Command::write`: version byte 4, command byte, port (u16 BE),
ip (u32 BE), empty USERID terminator 0. -/
def Socks4Command.write : Socks4Command → List Nat
  | .connect ip port => 4 :: 1 :: (writeU16 port ++ writeU32 ip ++ [0])
  | .bind ip port => 4 :: 2 :: (writeU16 port ++ writeU32 ip ++ [0])

/-- The `while stream.read_u8().await? != 0 {}` loop of
`Socks4Command::read`: discard bytes until a zero is consumed. -/
def skipUserId : List Nat → Except SocksErr (List Nat)
  | [] => .error .eof
  | b :: rest => if b = 0 then .ok rest else skipUserId rest

/-- `Socks4Command::read`: command byte (the version byte was already
consumed by `read_version`), port, ip, then the USERID skip loop. -/
def Socks4Command.read (s : List Nat) : Except SocksErr (Socks4Command × List Nat) := do
  let (b, s) ← readU8 s
  let ct ← socks4CommandTypeOfByte b
  let (port, s) ← readU16 s
  let (ip, s) ← readU32 s
  let s ← skipUserId s
  match ct with
  | .connect => .ok (.connect ip port, s)
  | .bind => .ok (.bind ip port, s)

/-- `Socks4Reply` from `src/socks4.rs`: the bound (IPv4, port). -/
structure Socks4Reply where
  ip : Nat
  port : Nat
deriving DecidableEq, Repr

/-- `Socks4Reply::read`: VN byte must be 0 (`ProtocolError` otherwise),
CD byte must be 90 (`RequestFailed(cd)` otherwise), then port and ip. -/
def Socks4Reply.read (s : List Nat) : Except SocksErr (Socks4Reply × List Nat) := do
  let (version, s) ← readU8 s
  if version ≠ 0 then .error .protocolError else do
  let (result, s) ← readU8 s
  if result ≠ 90 then .error (.requestFailed4 result) else do
  let (port, s) ← readU16 s
  let (ip, s) ← readU32 s
  .ok (⟨ip, port⟩, s)

/-- `Socks4Reply::write`: VN 0, CD 90, port, ip — unconditionally. -/
def Socks4Reply.write (r : Socks4Reply) : List Nat :=
  0 :: 90 :: (writeU16 r.port ++ writeU32 r.ip)

/-- `Socks5CommandType` from `src/socks5.rs`. -/
inductive Socks5CommandType where
  | connect
  | bind
deriving DecidableEq, Repr

/-- `Socks5Command` from `src/socks5.rs`: kind plus (IPv4, port). -/
inductive Socks5Command where
  | connect (ip : Nat) (port : Nat)
  | bind (ip : Nat) (port : Nat)
deriving DecidableEq, Repr

/-- `TryFrom<u8> for Socks5CommandType`: 1 ↦ Connect, 2 ↦ Bind, else
`ProtocolError`. -/
def socks5CommandTypeOfByte (v : Nat) : Except SocksErr Socks5CommandType :=
  match v with
  | 1 => .ok .connect
  | 2 => .ok .bind
  | _ => .error .protocolError

/-- Reading `n` bytes one by one (the `for _ in 0..num_methods` loop of
`read_socks5_auth_request`). -/
def readBytes : Nat → List Nat → Except SocksErr (List Nat × List Nat)
  | 0, s => .ok ([], s)
  | n + 1, s => do
    let (b, s) ← readU8 s
    let (bs, s) ← readBytes n s
    .ok (b :: bs, s)

/-- `read_socks5_auth_request`: NMETHODS byte, that many method bytes,
accept only when some offered method is 0 (no authentication). -/
def read_socks5_auth_request (s : List Nat) : Except SocksErr (List Nat) := do
  let (numMethods, s) ← readU8 s
  let (methods, s) ← readBytes numMethods s
  if methods.length ≠ numMethods then .error .protocolError
  else if !(methods.any (fun x => x = 0)) then .error .unsupportedAuthMethod
  else .ok s

/-- `write_socks5_auth_reply`: VER 5, METHOD 0. -/
def write_socks5_auth_reply : List Nat := [5, 0]

/-- `write_socks5_auth`: the outbound method negotiation VER 5,
NMETHODS 1, METHODS [0]. -/
def write_socks5_auth : List Nat := [5, 1, 0]

/-- `read_socks5_auth_reply`: VER must be 5 (`ProtocolError` otherwise),
METHOD must be 0 (`AuthRejected` otherwise). -/
def read_socks5_auth_reply (s : List Nat) : Except SocksErr (List Nat) := do
  let (ver, s) ← readU8 s
  if ver ≠ 5 then .error .protocolError else do
  let (reply, s) ← readU8 s
  if reply ≠ 0 then .error .authRejected else .ok s

/-- `Socks5Command::write`: VER 5, command byte, RSV 0, ATYP 1,
ip (u32 BE), port (u16 BE). -/
def Socks5Command.write : Socks5Command → List Nat
  | .connect ip port => 5 :: 1 :: 0 :: 1 :: (writeU32 ip ++ writeU16 port)
  | .bind ip port => 5 :: 2 :: 0 :: 1 :: (writeU32 ip ++ writeU16 port)

/-- `Socks5Command::read`: VER must be 5, then the command byte via
`TryFrom`, RSV must be 0, ATYP must be 1, then ip and port. -/
def Socks5Command.read (s : List Nat) : Except SocksErr (Socks5Command × List Nat) := do
  let (version, s) ← readU8 s
  if version ≠ 5 then .error .protocolError else do
  let (b, s) ← readU8 s
  let ct ← socks5CommandTypeOfByte b
  let (reserved, s) ← readU8 s
  if reserved ≠ 0 then .error .protocolError else do
  let (addressType, s) ← readU8 s
  if addressType ≠ 1 then .error .unsupportedCommand else do
  let (ip, s) ← readU32 s
  let (port, s) ← readU16 s
  match ct with
  | .connect => .ok (.connect ip port, s)
  | .bind => .ok (.bind ip port, s)

/-- `Socks5Reply` from `src/socks5.rs`: the bound (IPv4, port). -/
structure Socks5Reply where
  ip : Nat
  port : Nat
deriving DecidableEq, Repr

/-- `Socks5Reply::read`: VER must be 5, REP must be 0
(`RequestFailed(rep)` otherwise), RSV must be 0, ATYP must be 1, then
ip and port. -/
def Socks5Reply.read (s : List Nat) : Except SocksErr (Socks5Reply × List Nat) := do
  let (ver, s) ← readU8 s
  if ver ≠ 5 then .error .protocolError else do
  let (reply, s) ← readU8 s
  if reply ≠ 0 then .error (.requestFailed5 reply) else do
  let (reserved, s) ← readU8 s
  if reserved ≠ 0 then .error .protocolError else do
  let (addressType, s) ← readU8 s
  if addressType ≠ 1 then .error .unsupportedCommand else do
  let (ip, s) ← readU32 s
  let (port, s) ← readU16 s
  .ok (⟨ip, port⟩, s)

/-- `Socks5Reply::write`: VER 5, REP 0, RSV 0, ATYP 1, ip, port. -/
def Socks5Reply.write (r : Socks5Reply) : List Nat :=
  5 :: 0 :: 0 :: 1 :: (writeU32 r.ip ++ writeU16 r.port)

/-- `From<&Socks5Command> for Socks4Command`: preserve kind and address. -/
def socks4CommandOfSocks5 : Socks5Command → Socks4Command
  | .connect ip port => .connect ip port
  | .bind ip port => .bind ip port

/-- `From<&Socks4Command> for Socks5Command`: preserve kind and address. -/
def socks5CommandOfSocks4 : Socks4Command → Socks5Command
  | .connect ip port => .connect ip port
  | .bind ip port => .bind ip port

/-- `Proxy` from `src/config.rs`: a SOCKS4 or SOCKS5 upstream hop with its
(IPv4, port) address. -/
inductive Proxy where
  | socks4 (ip : Nat) (port : Nat)
  | socks5 (ip : Nat) (port : Nat)
deriving DecidableEq, Repr

/-- The (ip, port) address of a hop (both constructor cases of the
`match next` arms in `write_chain_common`). -/
def Proxy.addr : Proxy → Nat × Nat
  | .socks4 ip port => (ip, port)
  | .socks5 ip port => (ip, port)

/-- `ConfigError` from `src/config.rs`. -/
inductive ConfigErr where
  | unexpectedProxyType
  | emptyChain
  | noChains
deriving DecidableEq, Repr

/-- `TryFrom<Vec<Proxy>> for ChainEntries`: reject an empty stage. -/
def chainEntriesTryFrom (v : List Proxy) : Except ConfigErr (List Proxy) :=
  if v.length = 0 then .error .emptyChain else .ok v

/-- `TryFrom<Vec<Chain>> for Chains`: reject an empty list of stages. -/
def chainsTryFrom (v : List (List Proxy)) : Except ConfigErr (List (List Proxy)) :=
  if v.length = 0 then .error .noChains else .ok v

/-- The loop body of `write_chain_common` in `src/session.rs`: the request
instructing hop `p` to connect to hop `next` — a SOCKS4 CONNECT when `p`
is SOCKS4, the auth prelude followed by a SOCKS5 CONNECT when `p` is
SOCKS5; in both cases the target address is `next`'s, whatever its
variant. -/
def hopRequest (p next : Proxy) : List Nat :=
  match p with
  | .socks4 _ _ => (Socks4Command.connect (next.addr).1 (next.addr).2).write
  | .socks5 _ _ =>
      write_socks5_auth ++ (Socks5Command.connect (next.addr).1 (next.addr).2).write

/-- The bytes `write_chain_common` appends to the outbound buffer: one
`hopRequest` per adjacent pair of the chain (nothing for a chain of one
hop).  The source asserts the chain non-empty; the `[]` case here is the
unreachable arm behind that assertion. -/
def write_chain_common : List Proxy → List Nat
  | [] => []
  | [_] => []
  | p :: next :: rest => hopRequest p next ++ write_chain_common (next :: rest)

/-- One iteration of the `read_chain_common` loop: the reply frame(s) of
hop `p` — one SOCKS4 reply, or a method-negotiation reply followed by a
SOCKS5 reply — yielding the (ip, port) the hop reported. -/
def readHopReply (p : Proxy) (s : List Nat) : Except SocksErr ((Nat × Nat) × List Nat) :=
  match p with
  | .socks4 _ _ => do
      let (r, s) ← Socks4Reply.read s
      .ok ((r.ip, r.port), s)
  | .socks5 _ _ => do
      let s ← read_socks5_auth_reply s
      let (r, s) ← Socks5Reply.read s
      .ok ((r.ip, r.port), s)

/-- `read_chain_common` from `src/session.rs`: read one reply per hop in
chain order, discard all but the last, return the last hop's (ip, port).
The source asserts the chain non-empty; the `[]` case is the unreachable
arm behind that assertion, rendered as `eof`. -/
def read_chain_common : List Proxy → List Nat → Except SocksErr ((Nat × Nat) × List Nat)
  | [], _ => .error .eof
  | [p], s => readHopReply p s
  | p :: next :: rest, s => do
      let (_, s) ← readHopReply p s
      read_chain_common (next :: rest) s

/-- The terminal-request arm of `Session::handle_socks4`: the client's
SOCKS4 command re-encoded for the last hop — converted to SOCKS5 behind
the auth prelude when the last hop is SOCKS5, written as-is when SOCKS4. -/
def terminalRequest4 (last : Proxy) (command : Socks4Command) : List Nat :=
  match last with
  | .socks5 _ _ => write_socks5_auth ++ (socks5CommandOfSocks4 command).write
  | .socks4 _ _ => command.write

/-- The terminal-request arm of `Session::handle_socks5`: the client's
SOCKS5 command written behind the auth prelude when the last hop is
SOCKS5, converted to SOCKS4 when the last hop is SOCKS4. -/
def terminalRequest5 (last : Proxy) (command : Socks5Command) : List Nat :=
  match last with
  | .socks5 _ _ => write_socks5_auth ++ command.write
  | .socks4 _ _ => (socks4CommandOfSocks5 command).write

/-- The outbound buffer `buf` a SOCKS4 client session assembles before
`proxy_stream.write(&buf)` in `Session::handle_socks4`: the
`write_chain_common` bytes followed by the terminal request for
`chain.last()`.  `none` models the `chain.last().unwrap()` panic on an
empty chain. -/
def outboundBuf4 (chain : List Proxy) (command : Socks4Command) : Option (List Nat) :=
  match chain.getLast? with
  | none => none
  | some last => some (write_chain_common chain ++ terminalRequest4 last command)

/-- The outbound buffer `buf` a SOCKS5 client session assembles before
`proxy_stream.write(&buf)` in `Session::handle_socks5`. -/
def outboundBuf5 (chain : List Proxy) (command : Socks5Command) : Option (List Nat) :=
  match chain.getLast? with
  | none => none
  | some last => some (write_chain_common chain ++ terminalRequest5 last command)

/-- `Session::make_chain`, with the `choose` method of `rand` abstracted
as a function `pick` (`pick stage = none` iff `choose` would return
`None`); `none` models the `.unwrap()` panic. -/
def make_chain (pick : List Proxy → Option Proxy) :
    List (List Proxy) → Option (List Proxy)
  | [] => some []
  | stage :: rest => do
      let p ← pick stage
      let c ← make_chain pick rest
      some (p :: c)

/-- The client-facing reply bytes of `Session::handle_socks4` /
`Session::handle_socks5`: the (ip, port) obtained from
`read_chain_common`, re-encoded in the client's own variant. -/
def clientReplyBytes (v : SocksVersion) (ip port : Nat) : List Nat :=
  match v with
  | .socks4 => (Socks4Reply.mk ip port).write
  | .socks5 => (Socks5Reply.mk ip port).write

/-- The reply phase of a session: parse the chain's replies off the
upstream stream, then produce the client-facing reply bytes. -/
def replyPhase (v : SocksVersion) (chain : List Proxy) (s : List Nat) :
    Except SocksErr (List Nat × List Nat) := do
  let ((ip, port), s) ← read_chain_common chain s
  .ok (clientReplyBytes v ip port, s)

/-- The successful reply frame(s) hop `p` sends back, carrying the bound
address `r`: one SOCKS4 success reply, or the method-negotiation reply
followed by a SOCKS5 success reply (the frames the writers of the
respective variant produce). -/
def hopReplyFrame (p : Proxy) (r : Nat × Nat) : List Nat :=
  match p with
  | .socks4 _ _ => Socks4Reply.write ⟨r.1, r.2⟩
  | .socks5 _ _ => write_socks5_auth_reply ++ Socks5Reply.write ⟨r.1, r.2⟩

/-! ## Helper lemmas -/

theorem readU16_writeU16 (p : Nat) (hp : p < 65536) (rest : List Nat) :
    readU16 (writeU16 p ++ rest) = .ok (p, rest) := by
  simp only [readU16, writeU16, readU8, List.cons_append, List.nil_append, bind,
    Except.bind, Except.ok.injEq, Prod.mk.injEq]
  exact ⟨by omega, trivial⟩

theorem readU32_writeU32 (p : Nat) (hp : p < 4294967296) (rest : List Nat) :
    readU32 (writeU32 p ++ rest) = .ok (p, rest) := by
  simp only [readU32, readU16, writeU32, readU8, List.cons_append, List.nil_append, bind,
    Except.bind, Except.ok.injEq, Prod.mk.injEq]
  exact ⟨by omega, trivial⟩

theorem readBytes_exact (l rest : List Nat) :
    readBytes l.length (l ++ rest) = .ok (l, rest) := by
  induction l with
  | nil => simp [readBytes]
  | cons b t ih => simp [readBytes, readU8, ih, bind, Except.bind]

theorem skipUserId_all_nonzero (u rest : List Nat) (h : ∀ b ∈ u, b ≠ 0) :
    skipUserId (u ++ 0 :: rest) = .ok rest := by
  induction u with
  | nil => simp [skipUserId]
  | cons b t ih =>
      have hb : b ≠ 0 := h b (List.mem_cons_self b t)
      simp only [List.cons_append, skipUserId, if_neg hb]
      exact ih (fun x hx => h x (List.mem_cons_of_mem b hx))

theorem socks4Reply_read_write (ip port : Nat) (hip : ip < 4294967296)
    (hport : port < 65536) (rest : List Nat) :
    Socks4Reply.read (Socks4Reply.write ⟨ip, port⟩ ++ rest) = .ok (⟨ip, port⟩, rest) := by
  simp [Socks4Reply.read, Socks4Reply.write, readU8, bind, Except.bind, List.append_assoc,
    readU16_writeU16 port hport, readU32_writeU32 ip hip]

theorem socks5Reply_read_write (ip port : Nat) (hip : ip < 4294967296)
    (hport : port < 65536) (rest : List Nat) :
    Socks5Reply.read (Socks5Reply.write ⟨ip, port⟩ ++ rest) = .ok (⟨ip, port⟩, rest) := by
  simp [Socks5Reply.read, Socks5Reply.write, readU8, bind, Except.bind, List.append_assoc,
    readU32_writeU32 ip hip, readU16_writeU16 port hport]

theorem socks5Command_connect_read_write (ip port : Nat) (hip : ip < 4294967296)
    (hport : port < 65536) (rest : List Nat) :
    Socks5Command.read ((Socks5Command.connect ip port).write ++ rest) =
      .ok (.connect ip port, rest) := by
  simp [Socks5Command.read, Socks5Command.write, readU8, socks5CommandTypeOfByte, bind,
    Except.bind, List.append_assoc, readU32_writeU32 ip hip, readU16_writeU16 port hport]

theorem socks5Command_bind_read_write (ip port : Nat) (hip : ip < 4294967296)
    (hport : port < 65536) (rest : List Nat) :
    Socks5Command.read ((Socks5Command.bind ip port).write ++ rest) =
      .ok (.bind ip port, rest) := by
  simp [Socks5Command.read, Socks5Command.write, readU8, socks5CommandTypeOfByte, bind,
    Except.bind, List.append_assoc, readU32_writeU32 ip hip, readU16_writeU16 port hport]

theorem socks4Command_connect_read_write_tail (ip port : Nat) (hip : ip < 4294967296)
    (hport : port < 65536) (rest : List Nat) :
    Socks4Command.read (((Socks4Command.connect ip port).write).tail ++ rest) =
      .ok (.connect ip port, rest) := by
  simp [Socks4Command.read, Socks4Command.write, readU8, socks4CommandTypeOfByte, skipUserId,
    bind, Except.bind, List.append_assoc, readU16_writeU16 port hport, readU32_writeU32 ip hip]

theorem socks4Command_bind_read_write_tail (ip port : Nat) (hip : ip < 4294967296)
    (hport : port < 65536) (rest : List Nat) :
    Socks4Command.read (((Socks4Command.bind ip port).write).tail ++ rest) =
      .ok (.bind ip port, rest) := by
  simp [Socks4Command.read, Socks4Command.write, readU8, socks4CommandTypeOfByte, skipUserId,
    bind, Except.bind, List.append_assoc, readU16_writeU16 port hport, readU32_writeU32 ip hip]

/-! ## Claim theorems -/

/-- C5: the version detector returns SOCKS4 for first byte 4, SOCKS5 for
first byte 5, and fails with UnsupportedVersion for every other byte; on
success exactly the one version byte has been consumed (the remainder is
`rest`). -/
theorem read_version_dispatch (b : Nat) (rest : List Nat) :
    read_version (b :: rest) =
      if b = 4 then .ok (.socks4, rest)
      else if b = 5 then .ok (.socks5, rest)
      else .error .unsupportedVersion := by
  rcases b with _ | _ | _ | _ | _ | _ | b <;>
    simp [read_version, readU8, bind, Except.bind]

/-- C9: the SOCKS4 reply writer emits VN = 0 and CD = 90 (the success
code) unconditionally, for every ip and port; the client-facing SOCKS4
reply path therefore never encodes a failure code. -/
theorem socks4_reply_write_success_code (ip port : Nat) :
    (clientReplyBytes .socks4 ip port).take 2 = [0, 90] ∧
    ((Socks4Reply.mk ip port).write).take 2 = [0, 90] :=
  ⟨rfl, rfl⟩

/-- C2 counterexample: encode-then-decode fails for a SOCKS4 command.
`Socks4Command::write` emits a leading version byte 4, while
`Socks4Command::read` starts at the command byte (the version byte is
consumed by `read_version` before it runs), so the decoder reads the
version byte 4 as a command type and fails with ProtocolError instead of
returning the command. -/
theorem socks4_command_roundtrip_cex :
    Socks4Command.read ((Socks4Command.connect 1 2).write) = .error .protocolError := by
  rfl

/-- C2 (amended): a SOCKS4 command round-trips once the leading version
byte of its encoding is dropped (that byte is consumed by the version
detector before `Socks4Command::read` runs); a SOCKS5 command
round-trips as encoded, and so does a reply of either variant. -/
theorem frame_roundtrip_amended (ip port : Nat) (rest : List Nat)
    (hip : ip < 4294967296) (hport : port < 65536) :
    Socks4Command.read (((Socks4Command.connect ip port).write).tail ++ rest) =
        .ok (.connect ip port, rest) ∧
    Socks4Command.read (((Socks4Command.bind ip port).write).tail ++ rest) =
        .ok (.bind ip port, rest) ∧
    Socks5Command.read ((Socks5Command.connect ip port).write ++ rest) =
        .ok (.connect ip port, rest) ∧
    Socks5Command.read ((Socks5Command.bind ip port).write ++ rest) =
        .ok (.bind ip port, rest) ∧
    Socks4Reply.read ((Socks4Reply.mk ip port).write ++ rest) = .ok (.mk ip port, rest) ∧
    Socks5Reply.read ((Socks5Reply.mk ip port).write ++ rest) = .ok (.mk ip port, rest) :=
  ⟨socks4Command_connect_read_write_tail ip port hip hport rest,
   socks4Command_bind_read_write_tail ip port hip hport rest,
   socks5Command_connect_read_write ip port hip hport rest,
   socks5Command_bind_read_write ip port hip hport rest,
   socks4Reply_read_write ip port hip hport rest,
   socks5Reply_read_write ip port hip hport rest⟩

/-- C2 witness: the amended round-trip at ip 1, port 2, empty remainder. -/
theorem frame_roundtrip_amended_witness :
    Socks4Command.read (((Socks4Command.connect 1 2).write).tail ++ []) =
        .ok (.connect 1 2, []) ∧
    Socks4Command.read (((Socks4Command.bind 1 2).write).tail ++ []) =
        .ok (.bind 1 2, []) ∧
    Socks5Command.read ((Socks5Command.connect 1 2).write ++ []) = .ok (.connect 1 2, []) ∧
    Socks5Command.read ((Socks5Command.bind 1 2).write ++ []) = .ok (.bind 1 2, []) ∧
    Socks4Reply.read ((Socks4Reply.mk 1 2).write ++ []) = .ok (.mk 1 2, []) ∧
    Socks5Reply.read ((Socks5Reply.mk 1 2).write ++ []) = .ok (.mk 1 2, []) :=
  frame_roundtrip_amended 1 2 [] (by decide) (by decide)

/-- C6: a SOCKS5 method-negotiation request (NMETHODS byte followed by
that many method bytes) is accepted exactly when some offered method byte
is 0 (no authentication), and rejected with UnsupportedAuthMethod
otherwise. -/
theorem auth_request_accepts_iff_noauth (methods rest : List Nat) :
    read_socks5_auth_request (methods.length :: (methods ++ rest)) =
      if methods.any (fun x => x = 0) then .ok rest
      else .error .unsupportedAuthMethod := by
  cases h : methods.any (fun x => x = 0) <;>
    simp [read_socks5_auth_request, readU8, bind, Except.bind, readBytes_exact, h]

/-- C7: the SOCKS5 request reader fails with ProtocolError when VER ≠ 5,
then with ProtocolError when CMD ∉ {1, 2}, then with ProtocolError when
RSV ≠ 0, then with UnsupportedCommand when ATYP ≠ 1, and otherwise
succeeds with the command kind (CONNECT for 1, BIND for 2), the 4-byte
big-endian IPv4 address and the 2-byte big-endian port. -/
theorem socks5_request_read_spec (ver cmd rsv atyp i0 i1 i2 i3 p0 p1 : Nat)
    (rest : List Nat) :
    Socks5Command.read (ver :: cmd :: rsv :: atyp :: i0 :: i1 :: i2 :: i3 :: p0 :: p1 :: rest) =
      if ver ≠ 5 then .error .protocolError
      else if ¬(cmd = 1 ∨ cmd = 2) then .error .protocolError
      else if rsv ≠ 0 then .error .protocolError
      else if atyp ≠ 1 then .error .unsupportedCommand
      else .ok ((if cmd = 1 then
            Socks5Command.connect (i0 * 16777216 + i1 * 65536 + i2 * 256 + i3) (p0 * 256 + p1)
          else
            .bind (i0 * 16777216 + i1 * 65536 + i2 * 256 + i3) (p0 * 256 + p1)), rest) := by
  rcases cmd with _ | _ | _ | cmd
  · by_cases hv : ver = 5 <;>
      simp [Socks5Command.read, readU8, socks5CommandTypeOfByte, bind, Except.bind, hv]
  · by_cases hv : ver = 5 <;> by_cases hr : rsv = 0 <;> by_cases ha : atyp = 1 <;>
      simp [Socks5Command.read, readU8, readU16, readU32, socks5CommandTypeOfByte, bind,
        Except.bind, hv, hr, ha] <;> omega
  · by_cases hv : ver = 5 <;> by_cases hr : rsv = 0 <;> by_cases ha : atyp = 1 <;>
      simp [Socks5Command.read, readU8, readU16, readU32, socks5CommandTypeOfByte, bind,
        Except.bind, hv, hr, ha] <;> omega
  · have h1 : ¬(cmd + 3 = 1) := by omega
    have h2 : ¬(cmd + 3 = 2) := by omega
    by_cases hv : ver = 5 <;>
      simp [Socks5Command.read, readU8, socks5CommandTypeOfByte, bind, Except.bind, hv, h1, h2]

/-- C8: a SOCKS4 request parses to the same command for any USERID made
of nonzero bytes followed by the zero terminator (in particular for
lengths 0, 1, 16 and 255); the USERID bytes and the terminator are
consumed, leaving exactly the bytes after the terminator. -/
theorem socks4_userid_tolerance (c p0 p1 i0 i1 i2 i3 : Nat) (userid rest : List Nat)
    (hc : c = 1 ∨ c = 2) (h : ∀ b ∈ userid, b ≠ 0) :
    Socks4Command.read (c :: p0 :: p1 :: i0 :: i1 :: i2 :: i3 :: (userid ++ 0 :: rest)) =
      .ok ((if c = 1 then
            Socks4Command.connect (i0 * 16777216 + i1 * 65536 + i2 * 256 + i3) (p0 * 256 + p1)
          else
            .bind (i0 * 16777216 + i1 * 65536 + i2 * 256 + i3) (p0 * 256 + p1)), rest) := by
  rcases hc with hc | hc <;> subst hc <;>
    simp [Socks4Command.read, readU8, readU16, readU32, socks4CommandTypeOfByte, bind,
      Except.bind, skipUserId_all_nonzero userid rest h] <;> omega

/-- C8 witness: a CONNECT request with a 16-byte USERID parses, and the
stream is consumed through the terminator. -/
theorem socks4_userid_tolerance_witness :
    Socks4Command.read
        (1 :: 0 :: 80 :: 10 :: 0 :: 0 :: 1 :: (List.replicate 16 7 ++ 0 :: [])) =
      .ok ((if (1 : Nat) = 1 then
            Socks4Command.connect (10 * 16777216 + 0 * 65536 + 0 * 256 + 1) (0 * 256 + 80)
          else
            .bind (10 * 16777216 + 0 * 65536 + 0 * 256 + 1) (0 * 256 + 80)), []) :=
  socks4_userid_tolerance 1 0 80 10 0 0 1 (List.replicate 16 7) [] (Or.inl rfl) (by decide)

theorem write_chain_common_eq_join (chain : List Proxy) :
    write_chain_common chain =
      ((chain.zip chain.tail).map (fun pq => hopRequest pq.1 pq.2)).flatten := by
  induction chain with
  | nil => rfl
  | cons p rest ih =>
      cases rest with
      | nil => rfl
      | cons q t => simp [write_chain_common, ih]

/-- C1: for a non-empty materialized chain, the outbound byte buffer
assembled before any reply is read is the concatenation of one
`hopRequest` per adjacent pair — a CONNECT to the next hop in the current
hop's protocol, with the SOCKS5 auth prelude when the current hop is
SOCKS5, independent of the client command (also when the client requested
BIND) — followed by the terminal command encoded in the last hop's
protocol (with the auth prelude when the last hop is SOCKS5); for a
one-hop chain the buffer is the terminal request alone. -/
theorem chain_establishment_ordering (chain : List Proxy) (last : Proxy)
    (c4 : Socks4Command) (c5 : Socks5Command) (hlast : chain.getLast? = some last) :
    outboundBuf4 chain c4 =
      some ((((chain.zip chain.tail).map fun pq => hopRequest pq.1 pq.2).flatten)
        ++ terminalRequest4 last c4) ∧
    outboundBuf5 chain c5 =
      some ((((chain.zip chain.tail).map fun pq => hopRequest pq.1 pq.2).flatten)
        ++ terminalRequest5 last c5) ∧
    outboundBuf4 [last] c4 = some (terminalRequest4 last c4) ∧
    outboundBuf5 [last] c5 = some (terminalRequest5 last c5) := by
  refine ⟨?_, ?_, ?_, ?_⟩ <;>
    simp [outboundBuf4, outboundBuf5, hlast, write_chain_common_eq_join, write_chain_common]

/-- C1 witness: a SOCKS4→SOCKS5 two-hop chain with a client-requested
BIND command, in both client variants. -/
theorem chain_establishment_ordering_witness :
    outboundBuf4 [Proxy.socks4 1 2, Proxy.socks5 3 4] (Socks4Command.bind 5 6) =
      some (((([Proxy.socks4 1 2, Proxy.socks5 3 4].zip
          [Proxy.socks4 1 2, Proxy.socks5 3 4].tail).map
            fun pq => hopRequest pq.1 pq.2).flatten)
        ++ terminalRequest4 (Proxy.socks5 3 4) (Socks4Command.bind 5 6)) ∧
    outboundBuf5 [Proxy.socks4 1 2, Proxy.socks5 3 4] (Socks5Command.bind 7 8) =
      some (((([Proxy.socks4 1 2, Proxy.socks5 3 4].zip
          [Proxy.socks4 1 2, Proxy.socks5 3 4].tail).map
            fun pq => hopRequest pq.1 pq.2).flatten)
        ++ terminalRequest5 (Proxy.socks5 3 4) (Socks5Command.bind 7 8)) ∧
    outboundBuf4 [Proxy.socks5 3 4] (Socks4Command.bind 5 6) =
      some (terminalRequest4 (Proxy.socks5 3 4) (Socks4Command.bind 5 6)) ∧
    outboundBuf5 [Proxy.socks5 3 4] (Socks5Command.bind 7 8) =
      some (terminalRequest5 (Proxy.socks5 3 4) (Socks5Command.bind 7 8)) :=
  chain_establishment_ordering [Proxy.socks4 1 2, Proxy.socks5 3 4] (Proxy.socks5 3 4)
    (Socks4Command.bind 5 6) (Socks5Command.bind 7 8) rfl

theorem readHopReply_frame (p : Proxy) (r : Nat × Nat) (s : List Nat)
    (h1 : r.1 < 4294967296) (h2 : r.2 < 65536) :
    readHopReply p (hopReplyFrame p r ++ s) = .ok (r, s) := by
  obtain ⟨ip, port⟩ := r
  cases p with
  | socks4 a b =>
      simp [readHopReply, hopReplyFrame, bind, Except.bind,
        socks4Reply_read_write ip port h1 h2 s]
  | socks5 a b =>
      simp [readHopReply, hopReplyFrame, write_socks5_auth_reply, read_socks5_auth_reply,
        readU8, bind, Except.bind, List.append_assoc, socks5Reply_read_write ip port h1 h2 s]

theorem read_chain_common_frames (chain : List Proxy) (replies : List (Nat × Nat))
    (lastReply : Nat × Nat) (rest : List Nat)
    (hlen : replies.length = chain.length)
    (hlast : replies.getLast? = some lastReply)
    (hbounds : ∀ r ∈ replies, r.1 < 4294967296 ∧ r.2 < 65536) :
    read_chain_common chain ((List.zipWith hopReplyFrame chain replies).flatten ++ rest) =
      .ok (lastReply, rest) := by
  induction chain generalizing replies with
  | nil =>
      cases replies with
      | nil => simp at hlast
      | cons r t => simp at hlen
  | cons p tail ih =>
      cases replies with
      | nil => simp at hlen
      | cons r t =>
          have hb := hbounds r (List.mem_cons_self r t)
          cases tail with
          | nil =>
              cases t with
              | nil =>
                  simp only [List.getLast?_singleton, Option.some.injEq] at hlast
                  subst hlast
                  simp [read_chain_common, readHopReply_frame p r rest hb.1 hb.2]
              | cons r2 t2 => simp at hlen
          | cons q tt =>
              cases t with
              | nil => simp at hlen
              | cons r2 t2 =>
                  have hlast2 : (r2 :: t2).getLast? = some lastReply := by
                    simpa using hlast
                  have hlen2 : (r2 :: t2).length = (q :: tt).length := by
                    simpa using hlen
                  have hbounds2 : ∀ x ∈ r2 :: t2, x.1 < 4294967296 ∧ x.2 < 65536 :=
                    fun x hx => hbounds x (List.mem_cons_of_mem r hx)
                  simp only [List.zipWith_cons_cons, List.flatten_cons, List.append_assoc,
                    read_chain_common, readHopReply_frame p r _ hb.1 hb.2, bind, Except.bind]
                  have h := ih (r2 :: t2) hlen2 hlast2 hbounds2
                  simpa only [List.zipWith_cons_cons, List.flatten_cons,
                    List.append_assoc] using h

/-- C3: when the upstream reply stream consists of one success frame per
hop (each carrying that hop's bound address), the session's reply phase
consumes them all, discards every address but the last hop's, and writes
back to the client exactly the last hop's (ip, port), re-encoded in the
client's own protocol variant. -/
theorem reply_bubbling (v : SocksVersion) (chain : List Proxy)
    (replies : List (Nat × Nat)) (lastReply : Nat × Nat) (rest : List Nat)
    (hlen : replies.length = chain.length)
    (hlast : replies.getLast? = some lastReply)
    (hbounds : ∀ r ∈ replies, r.1 < 4294967296 ∧ r.2 < 65536) :
    replyPhase v chain ((List.zipWith hopReplyFrame chain replies).flatten ++ rest) =
      .ok (clientReplyBytes v lastReply.1 lastReply.2, rest) := by
  simp [replyPhase, bind, Except.bind,
    read_chain_common_frames chain replies lastReply rest hlen hlast hbounds]

/-- C3 witness: a SOCKS4 client over a SOCKS5→SOCKS4 two-hop chain; the
first hop's address is discarded and the second hop's (ip, port) comes
back re-encoded as a SOCKS4 reply. -/
theorem reply_bubbling_witness :
    replyPhase .socks4 [Proxy.socks5 1 2, Proxy.socks4 3 4]
        ((List.zipWith hopReplyFrame [Proxy.socks5 1 2, Proxy.socks4 3 4]
          [(9, 10), (11, 12)]).flatten ++ []) =
      .ok (clientReplyBytes .socks4 (11, 12).1 (11, 12).2, []) :=
  reply_bubbling .socks4 [Proxy.socks5 1 2, Proxy.socks4 3 4] [(9, 10), (11, 12)]
    (11, 12) [] rfl rfl (by decide)

/-- C4: whatever element the per-stage random choice picks (any `pick`
that only returns members of its input, as `choose` does), a materialized
chain produced by `make_chain` has exactly one hop per stage, and the hop
at every index is a member of the stage at that index. -/
theorem make_chain_bounds (pick : List Proxy → Option Proxy)
    (hpick : ∀ l p, pick l = some p → p ∈ l)
    (stages : List (List Proxy)) (chain : List Proxy)
    (hmk : make_chain pick stages = some chain) :
    chain.length = stages.length ∧
      ∀ (i : Nat) (p : Proxy) (stage : List Proxy),
        chain[i]? = some p → stages[i]? = some stage → p ∈ stage := by
  induction stages generalizing chain with
  | nil =>
      simp [make_chain] at hmk
      subst hmk
      simp
  | cons stage rest ih =>
      simp only [make_chain, bind, Option.bind_eq_bind, Option.bind_eq_some] at hmk
      obtain ⟨p, hp, c, hc, hchain⟩ := hmk
      obtain ⟨ihlen, ihmem⟩ := ih c hc
      obtain rfl := Option.some.inj hchain
      refine ⟨by simp [ihlen], ?_⟩
      intro i q st hq hst
      cases i with
      | zero =>
          simp only [List.getElem?_cons_zero, Option.some.injEq] at hq hst
          subst hq
          subst hst
          exact hpick stage p hp
      | succ i =>
          exact ihmem i q st (by simpa using hq) (by simpa using hst)

/-- C4 witness: a two-stage specification; the chain picked by taking
each stage's head has length 2 and respects stage membership. -/
theorem make_chain_bounds_witness :
    ([Proxy.socks4 1 2, Proxy.socks5 3 4] : List Proxy).length =
        ([[Proxy.socks4 1 2], [Proxy.socks5 3 4]] : List (List Proxy)).length ∧
      ∀ (i : Nat) (p : Proxy) (stage : List Proxy),
        ([Proxy.socks4 1 2, Proxy.socks5 3 4] : List Proxy)[i]? = some p →
        ([[Proxy.socks4 1 2], [Proxy.socks5 3 4]] : List (List Proxy))[i]? = some stage →
        p ∈ stage :=
  make_chain_bounds (fun l => l.head?)
    (fun l p h => by cases l <;> simp_all)
    [[Proxy.socks4 1 2], [Proxy.socks5 3 4]] [Proxy.socks4 1 2, Proxy.socks5 3 4] rfl

/-- C10: under the configuration invariant enforced at load time (the
stage list and every stage pass their `TryFrom` validation, so none is
empty) and with a choice function that succeeds on every non-empty list
(as `choose` does), `make_chain` is total: it returns a chain, and that
chain is non-empty, so the `unwrap` in `make_chain` and the
non-emptiness assertions of the establisher cannot fire. -/
theorem make_chain_total (pick : List Proxy → Option Proxy)
    (hpick : ∀ l, l ≠ [] → (pick l).isSome)
    (stages : List (List Proxy))
    (hchains : chainsTryFrom stages = .ok stages)
    (hstages : ∀ s ∈ stages, chainEntriesTryFrom s = .ok s) :
    ∃ chain, make_chain pick stages = some chain ∧ chain ≠ [] := by
  have hne : stages ≠ [] := by
    intro h
    subst h
    simp [chainsTryFrom] at hchains
  have aux : ∀ ss : List (List Proxy), (∀ s ∈ ss, s ≠ []) →
      ∃ c, make_chain pick ss = some c ∧ c.length = ss.length := by
    intro ss
    induction ss with
    | nil => exact fun _ => ⟨[], rfl, rfl⟩
    | cons s t ih =>
        intro hs
        obtain ⟨p, hp⟩ := Option.isSome_iff_exists.mp (hpick s (hs s (List.mem_cons_self s t)))
        obtain ⟨c, hc, hclen⟩ := ih (fun x hx => hs x (List.mem_cons_of_mem s hx))
        exact ⟨p :: c, by simp [make_chain, hp, hc, bind], by simp [hclen]⟩
  have hnonempty : ∀ s ∈ stages, s ≠ [] := by
    intro s hs hemp
    have h := hstages s hs
    rw [hemp] at h
    simp [chainEntriesTryFrom] at h
  obtain ⟨c, hc, hclen⟩ := aux stages hnonempty
  refine ⟨c, hc, fun hcnil => hne ?_⟩
  rw [hcnil] at hclen
  exact List.length_eq_zero.mp hclen.symm

/-- C10 witness: a one-stage configuration that passes validation; the
planner produces a non-empty chain. -/
theorem make_chain_total_witness :
    ∃ chain, make_chain (fun l => l.head?) [[Proxy.socks4 1 2]] = some chain ∧
      chain ≠ [] :=
  make_chain_total (fun l => l.head?)
    (fun l h => by cases l with
      | nil => exact absurd rfl h
      | cons a t => simp)
    [[Proxy.socks4 1 2]] rfl
    (fun s hs => by rw [List.mem_singleton] at hs; subst hs; rfl)

end RProxy
